import Mathlib

/-!
Verification of the geofront-cli tunnel proxy and session protocol.

Shallow embedding of the core of `geofront-cli` (the Geofront SSH tunnel
client): the session/authorization client (`geofrontcli/client.py`), the
port-map store and tunnel pipe (`geofrontcli/proxy.py`), the caller-side
retry loop (`geofrontcli/cli.py`), and the XDG search-path layer they use
(`dirspec/basedir.py`).  Python functions are translated into executable
Lean definitions; stateful or effectful code is modelled by explicit state
passing (the keyring store, the configuration files) or by a trace of
events over an environment oracle (the asyncio pipe).
-/

namespace GeofrontCli

/-! Section: Protocol version constants (`geofrontcli/version.py`, lines 14-18) -/

/-- Source: `MIN_PROTOCOL_VERSION = (0, 2, 0)` from `version.py`.  Python version
tuples are modelled as `List Int` because `tuple(map(int, ...))` can have
any length and `int` is signed. -/
def MIN_PROTOCOL_VERSION : List Int := [0, 2, 0]

/-- Source: `MAX_PROTOCOL_VERSION = (0, 4, 999)` from `version.py`. -/
def MAX_PROTOCOL_VERSION : List Int := [0, 4, 999]

/-- Python tuple/list comparison `xs <= ys`: lexicographic, element by
element from the left, with a shorter prefix comparing as smaller. -/
def pyTupleLe : List Int → List Int → Bool
  | [], _ => true
  | _ :: _, [] => false
  | a :: as, b :: bs => a < b || (a == b && pyTupleLe as bs)

/-- The range test `MIN_PROTOCOL_VERSION <= v <= MAX_PROTOCOL_VERSION`
performed at `client.py` lines 93-95. -/
def versionInRange (v : List Int) : Bool :=
  pyTupleLe MIN_PROTOCOL_VERSION v && pyTupleLe v MAX_PROTOCOL_VERSION

/-! Section: The Session Client (`geofrontcli/client.py`)

The embedding represents one HTTP response at the interface
`Client.request` observes it.  The `X-Geofront-Version` header is
represented by its parse result (`client.py` lines 80-91): Python treats
a missing header and an empty-string header alike (`if server_version:`),
both are `absent` here; a header whose `.strip().split('.')` parts do not
all parse as `int` raises `ValueError` and is `malformed`; otherwise the
header carries the parsed integer tuple.  JSON bodies are represented by
the fields the client inspects: `body.get('error')`, `body.get('message')`,
`body['success']` and `body['remote']`. -/

/-- A remote descriptor `{user, host, port}` (`result['remote']`). -/
structure Remote where
  user : String
  host : String
  port : Nat
deriving DecidableEq, Repr

/-- The protocol-version header of a response, by its parse result. -/
inductive VersionHeader where
  /-- Header missing, or present but empty (Python falsy). -/
  | absent
  /-- Header present but `tuple(map(int, ...))` raised `ValueError`. -/
  | malformed
  /-- Header parsed to an integer tuple. -/
  | parsed (v : List Int)
deriving DecidableEq, Repr

/-- One HTTP response as observed by `Client.request`. -/
structure HttpResponse where
  /-- Source: `response.code`. -/
  code : Nat
  /-- The `X-Geofront-Version` header, by parse result. -/
  versionHeader : VersionHeader
  /-- Whether `parse_mimetype(response.headers['Content-Type'])` yields
  `application/json`. -/
  contentTypeJson : Bool
  /-- Source: `body.get('error')` when the decoded JSON body is a dict with that
  key; `none` otherwise. -/
  bodyError : Option String
  /-- Source: `body.get('message')`. -/
  bodyMessage : Option String
  /-- Source: `body.get('success')`. -/
  bodySuccess : Option String
  /-- Source: `body.get('remote')` decoded as a remote descriptor. -/
  bodyRemote : Option Remote
deriving DecidableEq, Repr

/-- Errors `Client.request` can raise before yielding a response. -/
inductive ReqError where
  /-- Source: `ProtocolVersionError`; carries `server_version_info`
  (`none` when the header was absent or malformed). -/
  | protocolVersion (info : Option (List Int))
  /-- Source: `ExpiredTokenIdError` (404 `token-not-found` / 410 `expired-token`). -/
  | expiredTokenId
  /-- Source: `UnfinishedAuthenticationError` (412 `unfinished-authentication`),
  carrying `body['message']`. -/
  | unfinishedAuth (message : Option String)
deriving DecidableEq, Repr

/-- What `Client.request` yields on success: a `BufferedResponse` (the
JSON 4xx branch, body already read) or the raw response. -/
inductive ReqResult where
  | buffered (r : HttpResponse)
  | raw (r : HttpResponse)
deriving DecidableEq, Repr

/-- Source: `Client.request` (`client.py` lines 62-123), as a function of the
received response.  The second component records whether `request` itself
consumed (`read()`) the response body: the protocol-version check at lines
80-106 runs before the first `response.read()` at line 109, so every
`ProtocolVersionError` is raised with the body unconsumed (`false`). -/
def request (r : HttpResponse) : Except ReqError ReqResult × Bool :=
  match r.versionHeader with
  | .absent => (.error (.protocolVersion none), false)
  | .malformed => (.error (.protocolVersion none), false)
  | .parsed v =>
    if versionInRange v then
      if r.contentTypeJson && decide (400 ≤ r.code) && decide (r.code < 500) then
        if (r.code == 404 && r.bodyError == some "token-not-found") ||
           (r.code == 410 && r.bodyError == some "expired-token") then
          (.error .expiredTokenId, true)
        else if r.code == 412 && r.bodyError == some "unfinished-authentication" then
          (.error (.unfinishedAuth r.bodyMessage), true)
        else
          (.ok (.buffered r), true)
      else
        (.ok (.raw r), false)
    else
      (.error (.protocolVersion (some v)), false)

/-- The inclusive range `[(0,2,0), (0,4,999)]` on version triples, written
out with Python tuple-comparison semantics (lexicographic). -/
def tripleInRange (a b c : Int) : Prop :=
  (0 < a ∨ (0 = a ∧ (2 < b ∨ (2 = b ∧ 0 ≤ c)))) ∧
  (a < 0 ∨ (a = 0 ∧ (b < 4 ∨ (b = 4 ∧ c ≤ 999))))

instance (a b c : Int) : Decidable (tripleInRange a b c) := by
  unfold tripleInRange; infer_instance

theorem versionInRange_triple (a b c : Int) :
    versionInRange [a, b, c] = true ↔ tripleInRange a b c := by
  simp only [versionInRange, pyTupleLe, MIN_PROTOCOL_VERSION, MAX_PROTOCOL_VERSION,
    tripleInRange, Bool.and_eq_true, Bool.or_eq_true, decide_eq_true_eq, beq_iff_eq,
    and_true]
  omega

/-- C1: on every request, a response with no protocol-version header, or
with a version triple outside the inclusive range
`[(0,2,0), (0,4,999)]` (Python tuple comparison), makes `Client.request`
raise `ProtocolVersionError` with the response body unconsumed; every
triple inside the range is accepted, i.e. `request` never raises
`ProtocolVersionError` for it.  The check is part of `request` itself, so
it runs on every request, not only the first of a session. -/
theorem request_protocol_version_gate :
    (∀ r : HttpResponse, r.versionHeader = .absent →
      request r = (.error (.protocolVersion none), false)) ∧
    (∀ (r : HttpResponse) (a b c : Int), r.versionHeader = .parsed [a, b, c] →
      (¬ tripleInRange a b c →
        request r = (.error (.protocolVersion (some [a, b, c])), false)) ∧
      (tripleInRange a b c →
        ∀ info, (request r).1 ≠ .error (.protocolVersion info))) := by
  constructor
  · intro r h
    simp [request, h]
  · intro r a b c h
    constructor
    · intro hout
      have hv : versionInRange [a, b, c] = false := by
        cases hvr : versionInRange [a, b, c] with
        | true => exact absurd ((versionInRange_triple a b c).1 hvr) hout
        | false => rfl
      simp [request, h, hv]
    · intro hin info
      have hv : versionInRange [a, b, c] = true := (versionInRange_triple a b c).2 hin
      simp only [request, h, hv, if_true]
      split
      · split
        · simp
        · split <;> simp
      · simp

/-- Concrete instances of `request_protocol_version_gate`: a response
without the header is rejected with the body unconsumed; version `0.5.0`
is rejected; version `0.3.0` is accepted. -/
theorem request_protocol_version_gate_witness :
    request { code := 200, versionHeader := .absent, contentTypeJson := true,
              bodyError := none, bodyMessage := none, bodySuccess := none,
              bodyRemote := none }
      = (.error (.protocolVersion none), false) ∧
    request { code := 200, versionHeader := .parsed [0, 5, 0], contentTypeJson := true,
              bodyError := none, bodyMessage := none, bodySuccess := none,
              bodyRemote := none }
      = (.error (.protocolVersion (some [0, 5, 0])), false) ∧
    (request { code := 200, versionHeader := .parsed [0, 3, 0], contentTypeJson := true,
               bodyError := none, bodyMessage := none, bodySuccess := none,
               bodyRemote := none }).1
      ≠ .error (.protocolVersion none) :=
  ⟨request_protocol_version_gate.1 _ rfl,
   (request_protocol_version_gate.2 _ 0 5 0 rfl).1 (by decide),
   (request_protocol_version_gate.2 _ 0 3 0 rfl).2 (by decide) none⟩

/-! Section: `Client.authorize` (`client.py` lines 187-203) -/

/-- Decimal rendering of a natural number, as Python `str` produces it.
Fuel-based so that it reduces in the kernel; the fuel `n + 1` always
suffices because the argument strictly decreases under division by 10. -/
def natToDecimalAux : Nat → Nat → List Char
  | 0, _ => []
  | fuel + 1, n =>
    if n < 10 then [n.digitChar]
    else natToDecimalAux fuel (n / 10) ++ [(n % 10).digitChar]

/-- Source: `str(n)` for a natural number `n`. -/
def natToDecimal (n : Nat) : String := String.mk (natToDecimalAux (n + 1) n)

/-- Source: `'{0[user]}@{0[host]}:{0[port]}'.format(result['remote'])`
(`client.py` line 203). -/
def formatRemote (r : Remote) : String :=
  r.user ++ "@" ++ r.host ++ ":" ++ natToDecimal r.port

/-- Everything `Client.authorize` can raise: errors propagated from
`request`, plus its own `RemoteAliasError` / `RemoteStateError` (each
carrying `result.get('message')`), a failed `assert`, and the `KeyError`
from `result['remote']` when the key is missing. -/
inductive AuthError where
  | req (e : ReqError)
  | remoteAlias (message : Option String)
  | remoteState (message : Option String)
  | assertFailed
  | keyError
deriving DecidableEq, Repr

/-- Source: `Client.authorize` (`client.py` lines 187-203) as a function of the
server's HTTP response: issue the POST through `request`, assert the body
is JSON, then branch on `(status, error)` pairs exactly as the source
does. -/
def authorize (r : HttpResponse) : Except AuthError String :=
  match (request r).1 with
  | .error e => .error (.req e)
  | .ok _ =>
    if !r.contentTypeJson then .error .assertFailed
    else if r.code == 404 && r.bodyError == some "not-found" then
      .error (.remoteAlias r.bodyMessage)
    else if r.code == 500 && r.bodyError == some "connection-failure" then
      .error (.remoteState r.bodyMessage)
    else if r.code != 200 then .error .assertFailed
    else if r.bodySuccess != some "authorized" then .error .assertFailed
    else
      match r.bodyRemote with
      | some rem => .ok (formatRemote rem)
      | none => .error .keyError

/-- C2: `authorize` maps server responses (with a compatible protocol
version and a JSON body) to mutually exclusive outcomes: 200 with
`success == "authorized"` returns the formatted remote descriptor; 404
with `error == "not-found"` raises `RemoteAliasError`; 500 with
`error == "connection-failure"` raises `RemoteStateError`; 404 with
`error == "token-not-found"` and 410 with `error == "expired-token"`
raise `ExpiredTokenIdError`, an outcome distinct from the alias-not-found
one. -/
theorem authorize_outcome_mapping :
    (∀ (r : HttpResponse) (v : List Int),
      r.versionHeader = .parsed v → versionInRange v = true →
      r.contentTypeJson = true →
      ((r.code = 200 → r.bodySuccess = some "authorized" →
        ∀ rem, r.bodyRemote = some rem → authorize r = .ok (formatRemote rem)) ∧
       (r.code = 404 → r.bodyError = some "not-found" →
        authorize r = .error (.remoteAlias r.bodyMessage)) ∧
       (r.code = 500 → r.bodyError = some "connection-failure" →
        authorize r = .error (.remoteState r.bodyMessage)) ∧
       (r.code = 404 → r.bodyError = some "token-not-found" →
        authorize r = .error (.req .expiredTokenId)) ∧
       (r.code = 410 → r.bodyError = some "expired-token" →
        authorize r = .error (.req .expiredTokenId)))) ∧
    (∀ message, (AuthError.req .expiredTokenId) ≠ .remoteAlias message) := by
  refine ⟨?_, by intro m h; cases h⟩
  intro r v hh hv hj
  refine ⟨?_, ?_, ?_, ?_, ?_⟩
  · intro hc hs rem hrem
    simp [authorize, request, hh, hv, hj, hc, hs, hrem]
  · intro hc he
    simp [authorize, request, hh, hv, hj, hc, he]
  · intro hc he
    simp [authorize, request, hh, hv, hj, hc, he]
  · intro hc he
    simp [authorize, request, hh, hv, hj, hc, he]
  · intro hc he
    simp [authorize, request, hh, hv, hj, hc, he]

/-- A concrete authorized 200 response. -/
def authorizedResp : HttpResponse :=
  { code := 200, versionHeader := .parsed [0, 3, 0], contentTypeJson := true,
    bodyError := none, bodyMessage := none, bodySuccess := some "authorized",
    bodyRemote := some { user := "ubuntu", host := "h", port := 22 } }

/-- A concrete 410 `expired-token` response. -/
def expiredResp : HttpResponse :=
  { code := 410, versionHeader := .parsed [0, 3, 0], contentTypeJson := true,
    bodyError := some "expired-token", bodyMessage := none,
    bodySuccess := none, bodyRemote := none }

/-- Concrete instances of `authorize_outcome_mapping`: an authorized 200
response resolves to the descriptor, and a 410 `expired-token` response
fails with the expired-session error. -/
theorem authorize_outcome_mapping_witness :
    authorize authorizedResp = .ok "ubuntu@h:22" ∧
    authorize expiredResp = .error (.req .expiredTokenId) := by
  constructor
  · have h := (authorize_outcome_mapping.1 authorizedResp [0, 3, 0] rfl (by decide) rfl).1
      rfl rfl { user := "ubuntu", host := "h", port := 22 } rfl
    rw [h]; rfl
  · exact (authorize_outcome_mapping.1 expiredResp [0, 3, 0] rfl (by decide) rfl).2.2.2.2
      rfl rfl

/-! Section: The Port-Map Store (`geofrontcli/proxy.py` lines 29-68)

`load_proxy_port_map` iterates over `load_config_paths(CONFIG_RESOURCE)`
(`dirspec/basedir.py` lines 73-88), which yields the per-application
configuration directory under each entry of the XDG search path
**in search order**: `$XDG_CONFIG_HOME` first, the `$XDG_CONFIG_DIRS`
entries after it.  A directory is modelled by `Option PortFile`:
`none` when `path.is_file()` is false, otherwise the list of CSV rows of
its `proxyports.csv` (each row a list of string fields, as `csv.reader`
yields them).  `save_config_path` always resolves inside
`$XDG_CONFIG_HOME`, i.e. the *first* entry of the search path, so the
file system is a head (`home`) plus the later directories (`others`). -/

/-- One CSV row as produced by `csv.reader`: a list of string fields. -/
abbrev Row := List String

/-- The rows of one `proxyports.csv` file. -/
abbrev PortFile := List Row

/-- An insertion-ordered string-to-int mapping with Python `dict`
assignment semantics. -/
abbrev PortMap := List (String × Int)

/-- Python `data[k] = v`: update the existing entry in place, or append a
new one. -/
def dinsert (m : PortMap) (k : String) (v : Int) : PortMap :=
  match m with
  | [] => [(k, v)]
  | (k', v') :: rest => if k' = k then (k, v) :: rest else (k', v') :: dinsert rest k v

/-- Python `data[k]` / `k in data` lookup. -/
def dlookup (m : PortMap) (k : String) : Option Int :=
  match m with
  | [] => none
  | (k', v) :: rest => if k' = k then some v else dlookup rest k

/-- Source: `decDigit? c`: the decimal value of an ASCII digit character. -/
def decDigit? (c : Char) : Option Nat :=
  if '0' ≤ c ∧ c ≤ '9' then some (c.toNat - 48) else none

/-- Accumulating decimal parse of a digit string; `none` on the first
non-digit character. -/
def parseDigitsAux (acc : Nat) : List Char → Option Nat
  | [] => some acc
  | c :: cs =>
    match decDigit? c with
    | some d => parseDigitsAux (acc * 10 + d) cs
    | none => none

/-- Parse a non-empty list of decimal digits. -/
def parseNatDigits : List Char → Option Nat
  | [] => none
  | c :: cs => parseDigitsAux 0 (c :: cs)

/-- Python `int(s)` on the strings this program produces and consumes:
an optional sign followed by decimal digits.  (`int` also tolerates
surrounding whitespace and, since Python 3.6, single underscores between
digits; none of the strings written or specified here contain either.) -/
def parsePyInt (s : String) : Option Int :=
  match s.data with
  | [] => none
  | c :: cs =>
    if c = '+' then (parseNatDigits cs).map (fun n => (n : Int))
    else if c = '-' then (parseNatDigits cs).map (fun n => -(n : Int))
    else (parseNatDigits (c :: cs)).map (fun n => (n : Int))

/-- Source: `str(i)` for the integer values `csv.writer` renders. -/
def intToDecimal (i : Int) : String :=
  if i < 0 then String.mk ('-' :: natToDecimalAux ((-i).toNat + 1) (-i).toNat)
  else natToDecimal i.toNat

/-- The Python exceptions `load_proxy_port_map` can leak: `row[1]` on a
short row (`IndexError`, also raised by `row[0]` on a blank row) and
`int` on a non-numeric field (`ValueError`). -/
inductive CsvFault where
  | indexFault
  | valueFault
deriving DecidableEq, Repr

/-- The body of the `for row in csv.reader(f)` loop (`proxy.py` line 43):
`data[row[0]] = int(row[1])`. -/
def loadRow (m : PortMap) (row : Row) : Except CsvFault PortMap :=
  match row with
  | [] => .error .indexFault
  | [_] => .error .indexFault
  | k :: v :: _ =>
    match parsePyInt v with
    | some n => .ok (dinsert m k n)
    | none => .error .valueFault

/-- Folding `loadRow` over the rows of one file. -/
def loadRows (m : PortMap) : List Row → Except CsvFault PortMap
  | [] => .ok m
  | r :: rs =>
    match loadRow m r with
    | .ok m' => loadRows m' rs
    | .error e => .error e

/-- Folding over the configuration search path, skipping directories in
which `proxyports.csv` is not a file. -/
def loadFiles (m : PortMap) : List (Option PortFile) → Except CsvFault PortMap
  | [] => .ok m
  | none :: fs => loadFiles m fs
  | some f :: fs =>
    match loadRows m f with
    | .ok m' => loadFiles m' fs
    | .error e => .error e

/-- Source: `load_proxy_port_map` (`proxy.py` lines 36-44): start from an empty
dict and merge every `proxyports.csv` found along the search path, in
search order; each row assigns `data[row[0]] = int(row[1])`. -/
def load_proxy_port_map (files : List (Option PortFile)) : Except CsvFault PortMap :=
  loadFiles [] files

/-- Source: `save_proxy_port_map` (`proxy.py` lines 47-56): write every
`(key, value)` item of the dict, in iteration order, as one CSV row to
the file under `save_config_path`. -/
def save_proxy_port_map (data : PortMap) : PortFile :=
  data.map (fun p => [p.1, intToDecimal p.2])

/-- The configuration directories visible to the Port-Map Store: the
writable `$XDG_CONFIG_HOME` entry (first on the search path, and the one
`save_config_path` writes to) and the later search-path entries. -/
structure ConfigFS where
  home : Option PortFile
  others : List (Option PortFile)
deriving DecidableEq, Repr

/-- The full search path, in the order `load_config_paths` yields it. -/
def ConfigFS.paths (fs : ConfigFS) : List (Option PortFile) := fs.home :: fs.others

/-- Source: `get_port_for_remote` (`proxy.py` lines 58-68): load the merged map;
return the stored port when the key is present, otherwise record a fresh
ephemeral port (`get_unused_port()`, passed in as `freshPort` since the
OS chooses it) and persist the entire updated mapping to the writable
location. -/
def get_port_for_remote (freshPort : Int) (fs : ConfigFS) (host : String) :
    Except CsvFault (Int × ConfigFS) :=
  match load_proxy_port_map fs.paths with
  | .error e => .error e
  | .ok data =>
    match dlookup data host with
    | some p => .ok (p, fs)
    | none =>
      .ok (freshPort,
           { home := some (save_proxy_port_map (dinsert data host freshPort)),
             others := fs.others })

/-! Subsection: Decimal render/parse roundtrip -/

theorem decDigit_digitChar {d : Nat} (h : d < 10) :
    decDigit? (Nat.digitChar d) = some d := by
  interval_cases d <;> decide

theorem digitChar_ne_sign {d : Nat} (h : d < 10) :
    Nat.digitChar d ≠ '+' ∧ Nat.digitChar d ≠ '-' := by
  interval_cases d <;> exact ⟨by decide, by decide⟩

theorem parseDigitsAux_append (l₁ l₂ : List Char) (acc : Nat) :
    parseDigitsAux acc (l₁ ++ l₂) =
      match parseDigitsAux acc l₁ with
      | some m => parseDigitsAux m l₂
      | none => none := by
  induction l₁ generalizing acc with
  | nil => simp [parseDigitsAux]
  | cons c cs ih =>
    simp only [List.cons_append, parseDigitsAux]
    cases decDigit? c with
    | some d => exact ih _
    | none => rfl

theorem parse_natToDecimalAux :
    ∀ (fuel n : Nat), n < fuel →
      ∃ p : Nat, 0 < p ∧
        ∀ acc, parseDigitsAux acc (natToDecimalAux fuel n) = some (acc * p + n) := by
  intro fuel
  induction fuel with
  | zero => intro n h; omega
  | succ fuel ih =>
    intro n h
    by_cases h10 : n < 10
    · refine ⟨10, by omega, fun acc => ?_⟩
      simp [natToDecimalAux, h10, parseDigitsAux, decDigit_digitChar h10]
    · have hdiv : n / 10 < n := Nat.div_lt_self (by omega) (by omega)
      obtain ⟨p', hp', hparse⟩ := ih (n / 10) (by omega)
      refine ⟨p' * 10, by omega, fun acc => ?_⟩
      simp only [natToDecimalAux, if_neg h10]
      rw [parseDigitsAux_append, hparse acc]
      have hmod : n % 10 < 10 := Nat.mod_lt _ (by omega)
      simp only [parseDigitsAux, decDigit_digitChar hmod]
      have hdm : n / 10 * 10 + n % 10 = n := by omega
      have : (acc * p' + n / 10) * 10 + n % 10 = acc * (p' * 10) + (n / 10 * 10 + n % 10) := by
        ring
      rw [this, hdm]

theorem natToDecimalAux_ne_nil (fuel n : Nat) (h : 0 < fuel) :
    natToDecimalAux fuel n ≠ [] := by
  cases fuel with
  | zero => omega
  | succ fuel =>
    simp only [natToDecimalAux]
    split
    · simp
    · simp

theorem natToDecimalAux_mem (fuel n : Nat) (c : Char)
    (h : c ∈ natToDecimalAux fuel n) : ∃ d, d < 10 ∧ c = Nat.digitChar d := by
  induction fuel generalizing n with
  | zero => simp [natToDecimalAux] at h
  | succ fuel ih =>
    simp only [natToDecimalAux] at h
    by_cases h10 : n < 10
    · rw [if_pos h10] at h
      simp at h
      exact ⟨n, h10, h⟩
    · rw [if_neg h10] at h
      rcases List.mem_append.1 h with h' | h'
      · exact ih _ h'
      · simp at h'
        exact ⟨n % 10, Nat.mod_lt _ (by omega), h'⟩

theorem parseNatDigits_natToDecimalAux (n : Nat) :
    parseNatDigits (natToDecimalAux (n + 1) n) = some n := by
  obtain ⟨p, -, hparse⟩ := parse_natToDecimalAux (n + 1) n (by omega)
  rcases hl : natToDecimalAux (n + 1) n with _ | ⟨c, cs⟩
  · exact absurd hl (natToDecimalAux_ne_nil _ _ (by omega))
  · have := hparse 0
    rw [hl] at this
    simpa [parseNatDigits] using this

theorem natToDecimalAux_head_ne_sign (n : Nat) (c : Char) (cs : List Char)
    (h : natToDecimalAux (n + 1) n = c :: cs) : c ≠ '+' ∧ c ≠ '-' := by
  have hc : c ∈ natToDecimalAux (n + 1) n := by rw [h]; exact List.mem_cons_self _ _
  obtain ⟨d, hd, rfl⟩ := natToDecimalAux_mem _ _ _ hc
  exact digitChar_ne_sign hd

/-- Python roundtrip: `int(str(i)) == i` for the integers this program
writes to `proxyports.csv`. -/
theorem parsePyInt_intToDecimal (i : Int) : parsePyInt (intToDecimal i) = some i := by
  by_cases hneg : i < 0
  · rcases hl : natToDecimalAux ((-i).toNat + 1) (-i).toNat with _ | ⟨c, cs⟩
    · exact absurd hl (natToDecimalAux_ne_nil _ _ (by omega))
    · have hp : parseNatDigits (c :: cs) = some (-i).toNat := by
        rw [← hl]; exact parseNatDigits_natToDecimalAux _
      simp only [intToDecimal, if_pos hneg, parsePyInt, hl, hp]
      simp
      omega
  · rcases hl : natToDecimalAux (i.toNat + 1) i.toNat with _ | ⟨c, cs⟩
    · exact absurd hl (natToDecimalAux_ne_nil _ _ (by omega))
    · obtain ⟨hcp, hcm⟩ := natToDecimalAux_head_ne_sign _ _ _ hl
      have hp : parseNatDigits (c :: cs) = some i.toNat := by
        rw [← hl]; exact parseNatDigits_natToDecimalAux _
      simp only [intToDecimal, if_neg hneg, natToDecimal, parsePyInt, hl, hp]
      simp [if_neg hcp, if_neg hcm]
      omega

/-! Subsection: Dict and load lemmas -/

theorem dlookup_dinsert_self (m : PortMap) (k : String) (v : Int) :
    dlookup (dinsert m k v) k = some v := by
  induction m with
  | nil => simp [dinsert, dlookup]
  | cons p rest ih =>
    obtain ⟨k', v'⟩ := p
    by_cases h : k' = k
    · simp [dinsert, dlookup, h]
    · simp [dinsert, dlookup, h, ih]

theorem dlookup_dinsert_ne (m : PortMap) (k k' : String) (v : Int) (h : k' ≠ k) :
    dlookup (dinsert m k v) k' = dlookup m k' := by
  have h' : ¬k = k' := fun hh => h hh.symm
  induction m with
  | nil => simp [dinsert, dlookup, h']
  | cons p rest ih =>
    obtain ⟨k₀, v₀⟩ := p
    by_cases h₀ : k₀ = k
    · subst h₀
      simp [dinsert, dlookup, h']
    · by_cases h₁ : k₀ = k'
      · subst h₁
        simp [dinsert, dlookup, h₀]
      · simp [dinsert, dlookup, h₀, h₁, ih]

theorem dlookup_dinsert_none (m : PortMap) (k k' : String) (v : Int)
    (h : dlookup (dinsert m k v) k' = none) :
    dlookup m k' = none ∧ k ≠ k' := by
  by_cases hk : k = k'
  · subst hk
    rw [dlookup_dinsert_self] at h
    cases h
  · rw [dlookup_dinsert_ne m k k' v (fun hh => hk hh.symm)] at h
    exact ⟨h, hk⟩

theorem loadRows_none (rows : List Row) (m d : PortMap) (k : String)
    (h : loadRows m rows = .ok d) (hnone : dlookup d k = none) :
    dlookup m k = none ∧ ∀ row ∈ rows, row.head? ≠ some k := by
  induction rows generalizing m with
  | nil =>
    simp only [loadRows] at h
    cases h
    exact ⟨hnone, by simp⟩
  | cons r rs ih =>
    simp only [loadRows] at h
    rcases hr : loadRow m r with e | m₁
    · rw [hr] at h; cases h
    · rw [hr] at h
      obtain ⟨hm₁, hrs⟩ := ih m₁ h
      rcases r with _ | ⟨k₀, r'⟩
      · simp [loadRow] at hr
      · rcases r' with _ | ⟨v₀, r''⟩
        · simp [loadRow] at hr
        · simp only [loadRow] at hr
          rcases hv : parsePyInt v₀ with _ | n
          · rw [hv] at hr; cases hr
          · rw [hv] at hr
            cases hr
            obtain ⟨hm, hk₀⟩ := dlookup_dinsert_none m k₀ k n hm₁
            refine ⟨hm, ?_⟩
            intro row hrow
            rcases List.mem_cons.1 hrow with rfl | hrow'
            · simpa using hk₀
            · exact hrs row hrow'

theorem loadFiles_none (files : List (Option PortFile)) (m d : PortMap) (k : String)
    (h : loadFiles m files = .ok d) (hnone : dlookup d k = none) :
    dlookup m k = none ∧
      ∀ f ∈ files, ∀ rows, f = some rows → ∀ row ∈ rows, row.head? ≠ some k := by
  induction files generalizing m with
  | nil =>
    simp only [loadFiles] at h
    cases h
    exact ⟨hnone, by simp⟩
  | cons f fs ih =>
    cases f with
    | none =>
      simp only [loadFiles] at h
      obtain ⟨hm, hfs⟩ := ih m h
      refine ⟨hm, ?_⟩
      intro f' hf' rows hrows
      rcases List.mem_cons.1 hf' with rfl | hmem
      · cases hrows
      · exact hfs f' hmem rows hrows
    | some rows₀ =>
      simp only [loadFiles] at h
      rcases hr : loadRows m rows₀ with e | m₁
      · rw [hr] at h; cases h
      · rw [hr] at h
        obtain ⟨hm₁, hfs⟩ := ih m₁ h
        obtain ⟨hm, hrows₀⟩ := loadRows_none rows₀ m m₁ k hr hm₁
        refine ⟨hm, ?_⟩
        intro f' hf' rows hrows
        rcases List.mem_cons.1 hf' with rfl | hmem
        · cases hrows
          exact hrows₀
        · exact hfs f' hmem rows hrows

theorem loadRows_preserve (rows : List Row) (m d : PortMap) (k : String)
    (h : loadRows m rows = .ok d) (hk : ∀ row ∈ rows, row.head? ≠ some k) :
    dlookup d k = dlookup m k := by
  induction rows generalizing m with
  | nil =>
    simp only [loadRows] at h
    cases h
    rfl
  | cons r rs ih =>
    simp only [loadRows] at h
    rcases hr : loadRow m r with e | m₁
    · rw [hr] at h; cases h
    · rw [hr] at h
      rcases r with _ | ⟨k₀, r'⟩
      · simp [loadRow] at hr
      · rcases r' with _ | ⟨v₀, r''⟩
        · simp [loadRow] at hr
        · simp only [loadRow] at hr
          rcases hv : parsePyInt v₀ with _ | n
          · rw [hv] at hr; cases hr
          · rw [hv] at hr
            cases hr
            have hk₀ : k₀ ≠ k := by
              have := hk _ (List.mem_cons_self _ _)
              simpa using this
            rw [ih _ h (fun row hrow => hk row (List.mem_cons_of_mem _ hrow))]
            exact dlookup_dinsert_ne m k₀ k n (fun hh => hk₀ hh.symm)

theorem loadFiles_preserve (files : List (Option PortFile)) (m d : PortMap) (k : String)
    (h : loadFiles m files = .ok d)
    (hk : ∀ f ∈ files, ∀ rows, f = some rows → ∀ row ∈ rows, row.head? ≠ some k) :
    dlookup d k = dlookup m k := by
  induction files generalizing m with
  | nil =>
    simp only [loadFiles] at h
    cases h
    rfl
  | cons f fs ih =>
    cases f with
    | none =>
      simp only [loadFiles] at h
      exact ih m h (fun f' hf' => hk f' (List.mem_cons_of_mem _ hf'))
    | some rows₀ =>
      simp only [loadFiles] at h
      rcases hr : loadRows m rows₀ with e | m₁
      · rw [hr] at h; cases h
      · rw [hr] at h
        rw [ih m₁ h (fun f' hf' => hk f' (List.mem_cons_of_mem _ hf'))]
        exact loadRows_preserve rows₀ m m₁ k hr
          (hk _ (List.mem_cons_self _ _) rows₀ rfl)

/-! Subsection: Key distinctness, well-formed inputs, and the save/load refold -/

/-- The keys of a `PortMap`, in order. -/
def dkeys (m : PortMap) : List String := m.map Prod.fst

theorem dkeys_dinsert (m : PortMap) (k : String) (v : Int) :
    dkeys (dinsert m k v) = if k ∈ dkeys m then dkeys m else dkeys m ++ [k] := by
  induction m with
  | nil => simp [dinsert, dkeys]
  | cons p rest ih =>
    obtain ⟨k₀, v₀⟩ := p
    by_cases h₀ : k₀ = k
    · subst h₀
      simp [dinsert, dkeys]
    · have hne : ¬k = k₀ := fun hh => h₀ hh.symm
      simp only [dinsert, if_neg h₀, dkeys, List.map_cons] at *
      rw [ih]
      by_cases hk : k ∈ dkeys rest
      · simp [dkeys] at hk
        simp [hk, hne]
      · simp [dkeys] at hk
        simp [hk, hne]

theorem nodup_dkeys_dinsert (m : PortMap) (k : String) (v : Int)
    (h : (dkeys m).Nodup) : (dkeys (dinsert m k v)).Nodup := by
  rw [dkeys_dinsert]
  by_cases hk : k ∈ dkeys m
  · simpa [hk] using h
  · simp only [if_neg hk]
    rw [List.nodup_append]
    refine ⟨h, List.nodup_singleton _, ?_⟩
    intro a ha hb
    rw [List.mem_singleton] at hb
    subst hb
    exact hk ha

theorem loadRows_nodup (rows : List Row) (m d : PortMap)
    (h : loadRows m rows = .ok d) (hm : (dkeys m).Nodup) : (dkeys d).Nodup := by
  induction rows generalizing m with
  | nil =>
    simp only [loadRows] at h
    cases h
    exact hm
  | cons r rs ih =>
    simp only [loadRows] at h
    rcases hr : loadRow m r with e | m₁
    · rw [hr] at h; cases h
    · rw [hr] at h
      rcases r with _ | ⟨k₀, r'⟩
      · simp [loadRow] at hr
      · rcases r' with _ | ⟨v₀, r''⟩
        · simp [loadRow] at hr
        · simp only [loadRow] at hr
          rcases hv : parsePyInt v₀ with _ | n
          · rw [hv] at hr; cases hr
          · rw [hv] at hr
            cases hr
            exact ih _ h (nodup_dkeys_dinsert m k₀ n hm)

theorem loadFiles_nodup (files : List (Option PortFile)) (m d : PortMap)
    (h : loadFiles m files = .ok d) (hm : (dkeys m).Nodup) : (dkeys d).Nodup := by
  induction files generalizing m with
  | nil =>
    simp only [loadFiles] at h
    cases h
    exact hm
  | cons f fs ih =>
    cases f with
    | none =>
      simp only [loadFiles] at h
      exact ih m h hm
    | some rows₀ =>
      simp only [loadFiles] at h
      rcases hr : loadRows m rows₀ with e | m₁
      · rw [hr] at h; cases h
      · rw [hr] at h
        exact ih m₁ h (loadRows_nodup rows₀ m m₁ hr hm)

/-- A CSV row `load_proxy_port_map` can process without raising: at least
two fields, the second parseable as an integer. -/
def rowOk (row : Row) : Bool :=
  match row with
  | _ :: v :: _ => (parsePyInt v).isSome
  | _ => false

/-- Every row of every present file is processable. -/
def filesOk (files : List (Option PortFile)) : Bool :=
  files.all fun f =>
    match f with
    | none => true
    | some rows => rows.all rowOk

theorem loadRows_ok_of_rowOk (rows : List Row) (m : PortMap)
    (h : rows.all rowOk = true) : ∃ d, loadRows m rows = .ok d := by
  induction rows generalizing m with
  | nil => exact ⟨m, rfl⟩
  | cons r rs ih =>
    rw [List.all_cons, Bool.and_eq_true] at h
    obtain ⟨hr, hrs⟩ := h
    rcases r with _ | ⟨k₀, r'⟩
    · simp [rowOk] at hr
    · rcases r' with _ | ⟨v₀, r''⟩
      · simp [rowOk] at hr
      · simp only [rowOk] at hr
        rcases hv : parsePyInt v₀ with _ | n
        · rw [hv] at hr; simp at hr
        · obtain ⟨d, hd⟩ := ih (dinsert m k₀ n) hrs
          exact ⟨d, by simp only [loadRows, loadRow, hv]; exact hd⟩

theorem loadFiles_ok_of_filesOk (files : List (Option PortFile)) (m : PortMap)
    (h : filesOk files = true) : ∃ d, loadFiles m files = .ok d := by
  induction files generalizing m with
  | nil => exact ⟨m, rfl⟩
  | cons f fs ih =>
    rw [filesOk, List.all_cons, Bool.and_eq_true] at h
    obtain ⟨hf, hfs⟩ := h
    cases f with
    | none => exact ih m hfs
    | some rows₀ =>
      obtain ⟨m₁, hm₁⟩ := loadRows_ok_of_rowOk rows₀ m hf
      obtain ⟨d, hd⟩ := ih m₁ hfs
      exact ⟨d, by simp only [loadFiles, hm₁]; exact hd⟩

/-- Folding Python dict assignment over a list of pairs. -/
def dfold (m : PortMap) (ps : List (String × Int)) : PortMap :=
  ps.foldl (fun acc p => dinsert acc p.1 p.2) m

theorem loadRows_save (d : List (String × Int)) (m : PortMap) :
    loadRows m (save_proxy_port_map d) = .ok (dfold m d) := by
  induction d generalizing m with
  | nil => rfl
  | cons p rest ih =>
    obtain ⟨k, v⟩ := p
    simp only [save_proxy_port_map, List.map_cons, loadRows, loadRow,
      parsePyInt_intToDecimal]
    exact ih (dinsert m k v)

theorem dfold_cons_of_ne (ps : List (String × Int)) (m : PortMap) (k : String) (v : Int)
    (h : ∀ p ∈ ps, p.1 ≠ k) :
    dfold ((k, v) :: m) ps = (k, v) :: dfold m ps := by
  induction ps generalizing m with
  | nil => rfl
  | cons p rest ih =>
    obtain ⟨k₀, v₀⟩ := p
    have hk₀ : k₀ ≠ k := h _ (List.mem_cons_self _ _)
    have hkk : ¬k = k₀ := fun hh => hk₀ hh.symm
    simp only [dfold, List.foldl_cons]
    have hstep : dinsert ((k, v) :: m) k₀ v₀ = (k, v) :: dinsert m k₀ v₀ := by
      simp [dinsert, hkk]
    rw [hstep]
    have := ih (dinsert m k₀ v₀) (fun p hp => h p (List.mem_cons_of_mem _ hp))
    simpa [dfold] using this

theorem dfold_self (d : PortMap) (h : (dkeys d).Nodup) : dfold [] d = d := by
  induction d with
  | nil => rfl
  | cons p rest ih =>
    obtain ⟨k, v⟩ := p
    simp only [dkeys, List.map_cons, List.nodup_cons] at h
    obtain ⟨hk, hrest⟩ := h
    simp only [dfold, List.foldl_cons]
    have h1 : dinsert [] k v = [(k, v)] := rfl
    rw [h1]
    have h2 : ∀ p ∈ rest, p.1 ≠ k := by
      intro p hp heq
      exact hk (by rw [← heq]; exact List.mem_map_of_mem Prod.fst hp)
    have h3 := dfold_cons_of_ne rest [] k v h2
    simp only [dfold] at h3 ih ⊢
    rw [h3, ih hrest]

theorem loadRows_all_rowOk (rows : List Row) (m d : PortMap)
    (h : loadRows m rows = .ok d) : rows.all rowOk = true := by
  induction rows generalizing m with
  | nil => rfl
  | cons r rs ih =>
    simp only [loadRows] at h
    rcases hr : loadRow m r with e | m₁
    · rw [hr] at h; cases h
    · rw [hr] at h
      rw [List.all_cons, Bool.and_eq_true]
      refine ⟨?_, ih m₁ h⟩
      rcases r with _ | ⟨k₀, r'⟩
      · simp [loadRow] at hr
      · rcases r' with _ | ⟨v₀, r''⟩
        · simp [loadRow] at hr
        · simp only [loadRow] at hr
          rcases hv : parsePyInt v₀ with _ | n
          · rw [hv] at hr; cases hr
          · simp [rowOk, hv]

theorem loadFiles_filesOk (files : List (Option PortFile)) (m d : PortMap)
    (h : loadFiles m files = .ok d) : filesOk files = true := by
  induction files generalizing m with
  | nil => rfl
  | cons f fs ih =>
    rw [filesOk, List.all_cons, Bool.and_eq_true]
    cases f with
    | none =>
      simp only [loadFiles] at h
      exact ⟨rfl, ih m h⟩
    | some rows₀ =>
      simp only [loadFiles] at h
      rcases hr : loadRows m rows₀ with e | m₁
      · rw [hr] at h; cases h
      · rw [hr] at h
        exact ⟨by simpa using loadRows_all_rowOk rows₀ m m₁ hr, ih m₁ h⟩

/-- C3 evidence: with the same key defined in two search-path
directories, `load_proxy_port_map` returns the value from the **later**
directory — the row from the earlier (user) directory is overwritten by
the row from the later (system) directory, contradicting the documented
first-found-wins precedence. -/
theorem load_proxy_port_map_later_dir_wins :
    load_proxy_port_map
        [some [["example.com:22", "1001"]], some [["example.com:22", "1002"]]]
      = .ok [("example.com:22", 1002)] := by
  rfl

/-- C10: `load_proxy_port_map` is total exactly on inputs whose rows all
have at least two fields with an integer-parseable second field; a
one-field row leaks `IndexError` (from `row[1]`) and a non-integer second
field leaks `ValueError` (from `int(row[1])`), instead of returning a
mapping or skipping the row. -/
theorem load_proxy_port_map_totality :
    (∀ files, filesOk files = true → ∃ m, load_proxy_port_map files = .ok m) ∧
    load_proxy_port_map [some [["alias-only"]]] = .error .indexFault ∧
    load_proxy_port_map [some [["k", "12x"]]] = .error .valueFault := by
  exact ⟨fun files h => loadFiles_ok_of_filesOk files [] h, by rfl, by rfl⟩

/-- Concrete instance of `load_proxy_port_map_totality`: a well-formed
single-file configuration loads successfully. -/
theorem load_proxy_port_map_totality_witness :
    filesOk [some [["example.com:22", "1001"]], none] = true ∧
    ∃ m, load_proxy_port_map [some [["example.com:22", "1001"]], none] = .ok m :=
  ⟨by rfl, load_proxy_port_map_totality.1 _ (by rfl)⟩

/-- C4: `get_port_for_remote` is stable per key.  When the key is present
in the loaded mapping it returns the stored port and leaves the
configuration untouched; when absent it returns the fresh port and
persists the entire updated mapping (the merged dict plus the new key) to
the writable home location; and two sequential calls with no table reset
return the same port, the second leaving the table unchanged. -/
theorem get_port_for_remote_stable :
    (∀ (fs : ConfigFS) (host : String) (f p : Int) (data : PortMap),
      load_proxy_port_map fs.paths = .ok data → dlookup data host = some p →
      get_port_for_remote f fs host = .ok (p, fs)) ∧
    (∀ (fs : ConfigFS) (host : String) (f : Int) (data : PortMap),
      load_proxy_port_map fs.paths = .ok data → dlookup data host = none →
      get_port_for_remote f fs host =
        .ok (f, { home := some (save_proxy_port_map (dinsert data host f)),
                  others := fs.others })) ∧
    (∀ (fs fs₁ : ConfigFS) (host : String) (f₁ f₂ p₁ : Int),
      get_port_for_remote f₁ fs host = .ok (p₁, fs₁) →
      get_port_for_remote f₂ fs₁ host = .ok (p₁, fs₁)) := by
  refine ⟨?_, ?_, ?_⟩
  · intro fs host f p data hload hlook
    simp [get_port_for_remote, hload, hlook]
  · intro fs host f data hload hlook
    simp [get_port_for_remote, hload, hlook]
  · intro fs fs₁ host f₁ f₂ p₁ h
    rcases hload : load_proxy_port_map fs.paths with e | data
    · simp [get_port_for_remote, hload] at h
    · rcases hlook : dlookup data host with _ | p
      · -- key absent on the first call: a fresh port is recorded and saved
        simp only [get_port_for_remote, hload, hlook] at h
        rw [Except.ok.injEq, Prod.mk.injEq] at h
        obtain ⟨rfl, rfl⟩ := h
        -- facts about the first load
        have hnodup : (dkeys data).Nodup := loadFiles_nodup fs.paths [] data hload
          (by simp [dkeys])
        have hnodup' : (dkeys (dinsert data host f₁)).Nodup :=
          nodup_dkeys_dinsert data host f₁ hnodup
        -- the later directories never mention `host`
        have hothers : ∀ f ∈ fs.others, ∀ rows, f = some rows →
            ∀ row ∈ rows, row.head? ≠ some host := by
          have := loadFiles_none fs.paths [] data host hload hlook
          intro f hf
          exact this.2 f (by simp [ConfigFS.paths, hf])
        -- the later directories still load, from any starting dict
        have hokOthers : filesOk fs.others = true := by
          simp only [load_proxy_port_map, ConfigFS.paths, loadFiles] at hload
          cases hh : fs.home with
          | none =>
            rw [hh] at hload
            simp only [loadFiles] at hload
            exact loadFiles_filesOk fs.others [] data hload
          | some rows₀ =>
            rw [hh] at hload
            simp only [loadFiles] at hload
            rcases hr : loadRows [] rows₀ with e | m₁
            · rw [hr] at hload; cases hload
            · rw [hr] at hload
              exact loadFiles_filesOk fs.others m₁ data hload
        obtain ⟨data₂, hdata₂⟩ :=
          loadFiles_ok_of_filesOk fs.others (dinsert data host f₁) hokOthers
        -- the second load returns the saved dict merged with the others
        have hload₂ : load_proxy_port_map
            ({ home := some (save_proxy_port_map (dinsert data host f₁)),
               others := fs.others : ConfigFS }).paths = .ok data₂ := by
          simp only [load_proxy_port_map, ConfigFS.paths, loadFiles,
            loadRows_save, dfold_self _ hnodup']
          exact hdata₂
        -- and it still maps `host` to the freshly allocated port
        have hlook₂ : dlookup data₂ host = some f₁ := by
          rw [loadFiles_preserve fs.others (dinsert data host f₁) data₂ host
            hdata₂ hothers]
          exact dlookup_dinsert_self data host f₁
        simp [get_port_for_remote, hload₂, hlook₂]
      · -- key present on the first call: nothing was written
        simp only [get_port_for_remote, hload, hlook] at h
        rw [Except.ok.injEq, Prod.mk.injEq] at h
        obtain ⟨rfl, rfl⟩ := h
        simp [get_port_for_remote, hload, hlook]

/-- Concrete instance of `get_port_for_remote_stable`: with an empty
configuration the first call allocates and saves port 2222 for key
`"h:22"`, and the second call returns the same port with the table
unchanged. -/
theorem get_port_for_remote_stable_witness :
    get_port_for_remote 2222 { home := none, others := [] } "h:22"
      = .ok (2222, { home := some [["h:22", "2222"]], others := [] }) ∧
    get_port_for_remote 3333 { home := some [["h:22", "2222"]], others := [] } "h:22"
      = .ok (2222, { home := some [["h:22", "2222"]], others := [] }) := by
  constructor
  · have h := get_port_for_remote_stable.2.1 { home := none, others := [] } "h:22" 2222
      [] (by rfl) (by rfl)
    rw [h]
    rfl
  · exact get_port_for_remote_stable.2.2 { home := none, others := [] }
      { home := some [["h:22", "2222"]], others := [] } "h:22" 2222 3333 2222
      (by rfl)

/-! Section: The session credential (`client.py` lines 125-138)

`Client.token_id` reads the system credential store through
`keyring.get_password('geofront-cli', self.server_url)`; the store is
modelled as a function from `(service, name)` keys to optional strings. -/

/-- The system credential store. -/
def KeyringStore := String × String → Option String

/-- Source: `keyring.get_password(service, name)`. -/
def get_password (store : KeyringStore) (service name : String) : Option String :=
  store (service, name)

/-- Source: `keyring.set_password(service, name, password)`. -/
def set_password (store : KeyringStore) (service name password : String) : KeyringStore :=
  fun k => if k = (service, name) then some password else store k

/-- The failure `token_id` raises. -/
inductive TokenIdFailure where
  | noTokenId
deriving DecidableEq, Repr

/-- The `Client.token_id` property getter (`client.py` lines 125-134):
`if token_id:` is Python truthiness, so both a missing credential and a
stored empty string raise `NoTokenIdError`. -/
def token_id (store : KeyringStore) (server_url : String) :
    Except TokenIdFailure String :=
  match get_password store "geofront-cli" server_url with
  | none => .error .noTokenId
  | some t => if t = "" then .error .noTokenId else .ok t

/-- The `Client.token_id` setter (`client.py` lines 136-138). -/
def set_token_id (store : KeyringStore) (server_url t : String) : KeyringStore :=
  set_password store "geofront-cli" server_url t

/-- C9: reading `token_id` raises `NoTokenIdError` whenever the
credential store holds nothing — or an empty string, which is
indistinguishable from absence at this interface — for the
`('geofront-cli', server_url)` key; any non-empty stored token is
returned as-is, so a set-then-get of a non-empty token yields it back. -/
theorem token_id_getter_setter :
    ∀ (store : KeyringStore) (url : String),
      (get_password store "geofront-cli" url = none →
        token_id store url = .error .noTokenId) ∧
      (get_password store "geofront-cli" url = some "" →
        token_id store url = .error .noTokenId) ∧
      (∀ t, t ≠ "" → get_password store "geofront-cli" url = some t →
        token_id store url = .ok t) ∧
      (∀ t, t ≠ "" → token_id (set_token_id store url t) url = .ok t) := by
  intro store url
  refine ⟨?_, ?_, ?_, ?_⟩
  · intro h
    simp [token_id, h]
  · intro h
    simp [token_id, h]
  · intro t ht h
    simp [token_id, h, ht]
  · intro t ht
    simp [token_id, set_token_id, set_password, get_password, ht]

/-- Concrete instance of `token_id_getter_setter`: on an empty store the
getter fails, and after storing `"deadbeef"` it returns `"deadbeef"`. -/
theorem token_id_getter_setter_witness :
    token_id (fun _ => none) "https://gf" = .error .noTokenId ∧
    token_id (set_token_id (fun _ => none) "https://gf" "deadbeef") "https://gf"
      = .ok "deadbeef" :=
  ⟨(token_id_getter_setter (fun _ => none) "https://gf").1 rfl,
   (token_id_getter_setter (fun _ => none) "https://gf").2.2.2 "deadbeef" (by decide)⟩

/-! Section: The caller-side retry loop (`geofrontcli/cli.py` lines 264-283)

```
while True:
    try:
        remote = client.authorize(alias or args.remote)
    except RemoteError as e:
        print(e, file=sys.stderr)
        if args.debug:
            raise
    except TokenIdError:
        print('Authentication required.', file=sys.stderr)
        authenticate.call(args)
    else:
        break
return remote
```

Each loop iteration performs one `client.authorize` attempt; the
environment oracle `attempts` gives the outcome of the `i`-th attempt.
A `TokenIdError` (no token / expired token) triggers
`authenticate.call(args)` and another iteration when re-authentication
succeeds, or propagates the authentication failure otherwise; a
`RemoteError` is printed and — without `--debug` — the loop runs again;
the loop only exits via `break` on a successful attempt or by an
exception escaping.  The loop is fuel-indexed: `none` means the loop is
still running after `fuel` iterations. -/

/-- Outcome of one `client.authorize` attempt, as the `cli.authorize`
loop observes it. -/
inductive AttemptOutcome where
  /-- Source: `authorize` returned a remote. -/
  | ok (remote : String)
  /-- Source: `authorize` raised a `RemoteError` with this message. -/
  | remoteErr (message : String)
  /-- Source: `authorize` raised a `TokenIdError` and the subsequent
  `authenticate.call(args)` succeeded. -/
  | tokenErr
  /-- Source: `authorize` raised a `TokenIdError` and re-authentication itself
  raised, escaping the loop. -/
  | tokenErrAuthRaised (message : String)
deriving DecidableEq, Repr

/-- How one invocation of the `cli.authorize` loop can end. -/
inductive LoopExit where
  | returned (remote : String)
  | raised (message : String)
deriving DecidableEq, Repr

/-- The `while True` loop of `cli.authorize`, fuel-indexed: `i` is the
index of the next attempt, and the result is `none` when the loop has
not exited within the given fuel. -/
def cli_authorize_loop (debug : Bool) (attempts : Nat → AttemptOutcome) :
    Nat → Nat → Option LoopExit
  | _, 0 => none
  | i, fuel + 1 =>
    match attempts i with
    | .ok r => some (.returned r)
    | .remoteErr m =>
      if debug then some (.raised m) else cli_authorize_loop debug attempts (i + 1) fuel
    | .tokenErr => cli_authorize_loop debug attempts (i + 1) fuel
    | .tokenErrAuthRaised m => some (.raised m)

/-- The loop terminates: it exits within some finite number of
iterations. -/
def loopTerminates (debug : Bool) (attempts : Nat → AttemptOutcome) : Prop :=
  ∃ fuel r, cli_authorize_loop debug attempts 0 fuel = some r

theorem cli_authorize_loop_all_token_none (fuel i : Nat) :
    cli_authorize_loop false (fun _ => .tokenErr) i fuel = none := by
  induction fuel generalizing i with
  | zero => rfl
  | succ fuel ih => exact ih (i + 1)

/-- C7 counterexample: when every `authorize` attempt fails with a token
(expired-session / no-token) failure and every re-authentication
succeeds, the `cli.authorize` loop never terminates — there is no bound
on the number of re-authentications. -/
theorem cli_authorize_loop_no_bound :
    ¬ loopTerminates false (fun _ => .tokenErr) := by
  rintro ⟨fuel, r, h⟩
  rw [cli_authorize_loop_all_token_none fuel 0] at h
  cases h

/-- Source: `Client.request` issues exactly one HTTP exchange per call
(`urlopen` at `client.py` line 76, never retried): over a stream of
available responses it consumes only the first. -/
def requestOnStream (s : Nat → HttpResponse) : Except ReqError ReqResult × Bool :=
  request (s 0)

/-- C7 amended: the retry loop around `authorize` in `cli.py` is
`while True` with no bound — under perpetual token failures with
successful re-authentication it runs forever (it is the *server*
eventually succeeding, an attempt raising, or `--debug` that ends it) —
while the Session Client itself never retries an HTTP call: its result
depends only on the single response it consumes. -/
theorem cli_authorize_loop_unbounded_client_no_retry :
    (∀ fuel, cli_authorize_loop false (fun _ => .tokenErr) 0 fuel = none) ∧
    (∀ s₁ s₂ : Nat → HttpResponse, s₁ 0 = s₂ 0 →
      requestOnStream s₁ = requestOnStream s₂) := by
  constructor
  · intro fuel
    exact cli_authorize_loop_all_token_none fuel 0
  · intro s₁ s₂ h
    simp [requestOnStream, h]

/-- Concrete instance of `cli_authorize_loop_unbounded_client_no_retry`:
with fuel 5 the all-token-failure loop is still running, and `request`
reads only the head of the response stream. -/
theorem cli_authorize_loop_unbounded_client_no_retry_witness :
    cli_authorize_loop false (fun _ => .tokenErr) 0 5 = none ∧
    requestOnStream (fun _ => expiredResp) =
      requestOnStream (fun i => if i = 0 then expiredResp else authorizedResp) :=
  ⟨cli_authorize_loop_unbounded_client_no_retry.1 5,
   cli_authorize_loop_unbounded_client_no_retry.2 _ _ (by decide)⟩

/-! Section: The Tunnel Pipe (`geofrontcli/proxy.py` lines 71-185)

The two forwarding directions are sequential loops and are embedded
directly.  `handle_ssh_sock` (lines 80-89) repeatedly awaits
`sock_recv`; the oracle list `reads` gives the successive results of
those reads (a final `[]` models the zero-length read of a closed peer;
exhausting the list models the task still blocked or cancelled, which
also ends the direction with no further sends).  The WebSocket receive
loop (lines 145-153) iterates over incoming messages: `BINARY` payloads
are written to the accepted socket, `CLOSED` and `ERROR` break the loop,
any other message type falls through each branch and is skipped. -/

/-- One WebSocket message as the receive loop classifies it. -/
inductive WsMsg where
  /-- Source: `WSMsgType.BINARY` with its payload bytes. -/
  | binary (data : List Nat)
  /-- Source: `WSMsgType.CLOSED`. -/
  | closed
  /-- Source: `WSMsgType.ERROR`. -/
  | error
  /-- Any other message type (no branch matches; the loop continues). -/
  | other
deriving DecidableEq, Repr

/-- Source: `handle_ssh_sock` (`proxy.py` lines 80-89): the successive chunks
sent to the WebSocket via `ws.send_bytes`, given the successive results
of `sock_recv`. -/
def handle_ssh_sock : List (List Nat) → List (List Nat)
  | [] => []
  | r :: rs => if r = [] then [] else r :: handle_ssh_sock rs

/-- The `async for msg in ws` body (`proxy.py` lines 145-153): the
successive payloads written to the accepted socket via `sock_sendall`. -/
def ws_receive_loop : List WsMsg → List (List Nat)
  | [] => []
  | .binary d :: ms => d :: ws_receive_loop ms
  | .closed :: _ => []
  | .error :: _ => []
  | .other :: ms => ws_receive_loop ms

/-- Source: `true` for a message that breaks the receive loop. -/
def wsTerminal : WsMsg → Bool
  | .closed => true
  | .error => true
  | _ => false

/-- The payload of a binary frame. -/
def wsBinaryData : WsMsg → Option (List Nat)
  | .binary d => some d
  | _ => none

/-- C6: during piping, every chunk read from the accepted local socket is
forwarded to the WebSocket unmodified and in receipt order, the
direction ending at the first zero-length read; and every binary
WebSocket frame payload is written to the accepted socket unmodified and
in receipt order, the direction ending at the first close or error
frame. -/
theorem pipe_forwarding_order :
    (∀ reads : List (List Nat),
      handle_ssh_sock reads = reads.takeWhile (fun c => !c.isEmpty)) ∧
    (∀ msgs : List WsMsg,
      ws_receive_loop msgs =
        (msgs.takeWhile (fun m => !wsTerminal m)).filterMap wsBinaryData) := by
  constructor
  · intro reads
    induction reads with
    | nil => rfl
    | cons r rs ih =>
      cases r with
      | nil => simp [handle_ssh_sock, List.takeWhile]
      | cons a as => simp [handle_ssh_sock, List.takeWhile, ih]
  · intro msgs
    induction msgs with
    | nil => rfl
    | cons m ms ih =>
      cases m with
      | binary d => simp [ws_receive_loop, List.takeWhile, wsTerminal, wsBinaryData, ih]
      | closed => simp [ws_receive_loop, List.takeWhile, wsTerminal]
      | error => simp [ws_receive_loop, List.takeWhile, wsTerminal]
      | other => simp [ws_receive_loop, List.takeWhile, wsTerminal, wsBinaryData, ih]

/-! Subsection: The `pipe` coroutine as an event trace

`pipe` (`proxy.py` lines 71-172) is straight-line code around the
receive loop; it is embedded as a function from an environment oracle —
the outcomes of its external interactions — to the ordered list of
observable events of one invocation.  Terminal causes that interrupt the
receive loop early (outer cancellation, the subprocess-watcher
cancelling the pipe task) are represented by truncating `msgs`, since
`except asyncio.CancelledError: pass` funnels them into the same
`finally` block; a cancellation while awaiting `sock_accept` is the
`acceptOk = false` path. -/

/-- Observable events of one `pipe` invocation, in program order. -/
inductive Ev where
  /-- Source: `ClientSession()` created (line 114). -/
  | sessionCreate
  /-- the listener socket object created (line 119). -/
  | sockCreate
  /-- Source: `get_port_for_remote` returned this port (line 121). -/
  | portMapped (port : Int)
  /-- Source: `local_sock.bind(('localhost', port))` attempted (line 123). -/
  | bindAttempt (port : Int)
  /-- the bind raised `OSError`: `Cannot bind to port` logged, `return`
  (lines 124-127). -/
  | bindFailLog
  /-- Source: `local_sock.listen(1)` (line 128). -/
  | listen
  /-- Source: `session.ws_connect(url)` attempted (line 131). -/
  | connectAttempt
  /-- the WebSocket connection is open. -/
  | wsConnected
  /-- Source: `ClientError` logged (lines 154-155). -/
  | clientErrorLog
  /-- the `raise` re-raising the `ClientError` (line 156), after the
  `finally` block ran. -/
  | raiseClientError
  /-- the SSH subprocess spawned via `handle_subproc` (lines 138-139). -/
  | spawnSubproc
  /-- Source: `sock_accept` returned the accepted socket (line 141). -/
  | accepted
  /-- Source: `TCP_NODELAY` set on the accepted socket (line 142). -/
  | sockNoDelay
  /-- Source: `local_sock.close()` — the listener is single-use (line 143). -/
  | listenerClose
  /-- Source: `handle_ssh_sock` started as the reader task (line 144). -/
  | readerStart
  /-- one `sock_sendall` of a binary payload (line 147). -/
  | sockSend (data : List Nat)
  /-- Source: `Unexpected error!` logged by the bare `except:` (lines 159-161). -/
  | unexpectedErrLog
  /-- Source: `subproc_task.cancel()` in `finally` (line 164). -/
  | subprocCancel
  /-- Source: `await subproc_task` in `finally` (line 165). -/
  | subprocAwait
  /-- Source: `ssh_reader_task.cancel()` in `finally` (line 167). -/
  | readerCancel
  /-- Source: `await ssh_reader_task` in `finally` (line 168). -/
  | readerAwait
  /-- Source: `ssh_sock.close()` in `finally` (line 170). -/
  | sshSockClose
  /-- Source: `session.close()` in `finally` (line 171). -/
  | sessionClose
  /-- Source: `loop.stop()` in `finally` (line 172). -/
  | loopStop
deriving DecidableEq, Repr

/-- The outcomes of `pipe`'s external interactions in one invocation. -/
structure PipeEnv where
  /-- Source: `get_port_for_remote` returned without raising. -/
  portMapOk : Bool
  /-- the port it returned (or would have). -/
  bindPort : Int
  /-- Source: `local_sock.bind` did not raise `OSError`. -/
  bindOk : Bool
  /-- Source: `session.ws_connect` did not raise `ClientError`. -/
  connectOk : Bool
  /-- Source: `sock_accept` returned (rather than the task being cancelled while
  awaiting it). -/
  acceptOk : Bool
  /-- the WebSocket messages received before the loop ended. -/
  msgs : List WsMsg
  /-- Source: `subproc_task.done()` at `finally` time. -/
  subprocDone : Bool
  /-- Source: `ssh_reader_task.done()` at `finally` time. -/
  readerDone : Bool
deriving DecidableEq, Repr

/-- The `finally` block (`proxy.py` lines 162-172), parameterised by
which resources exist and which tasks are already done. -/
def pipeCleanup (subprocStarted subprocDone readerStarted readerDone sshSockOpen : Bool) :
    List Ev :=
  (if subprocStarted && !subprocDone then [.subprocCancel, .subprocAwait] else []) ++
  (if readerStarted && !readerDone then [.readerCancel, .readerAwait] else []) ++
  (if sshSockOpen then [.sshSockClose] else []) ++
  [.sessionClose, .loopStop]

/-- The event trace of one `pipe` invocation (`proxy.py` lines 71-172). -/
def pipe (env : PipeEnv) : List Ev :=
  [.sessionCreate, .sockCreate] ++
  (if !env.portMapOk then
    [.unexpectedErrLog] ++ pipeCleanup false false false false false
  else
    [.portMapped env.bindPort, .bindAttempt env.bindPort] ++
    (if !env.bindOk then
      [.bindFailLog] ++ pipeCleanup false false false false false
    else
      [.listen, .connectAttempt] ++
      (if !env.connectOk then
        [.clientErrorLog] ++ pipeCleanup false false false false false ++
          [.raiseClientError]
      else
        [.wsConnected, .spawnSubproc] ++
        (if !env.acceptOk then
          pipeCleanup true env.subprocDone false false false
        else
          [.accepted, .sockNoDelay, .listenerClose, .readerStart] ++
          (ws_receive_loop env.msgs).map .sockSend ++
          pipeCleanup true env.subprocDone true env.readerDone true))))

/-- C5: when binding the stabilized local port fails, `pipe` terminates
immediately with a bind failure: the trace is exactly creation, port
lookup, the single bind attempt, the bind-failure log and the `finally`
cleanup — there is no second bind attempt, no other port, no WebSocket
connection attempt and no subprocess spawn. -/
theorem pipe_bind_failure_terminates :
    ∀ env : PipeEnv, env.portMapOk = true → env.bindOk = false →
      pipe env = [.sessionCreate, .sockCreate, .portMapped env.bindPort,
                  .bindAttempt env.bindPort, .bindFailLog, .sessionClose, .loopStop] ∧
      Ev.connectAttempt ∉ pipe env ∧
      Ev.spawnSubproc ∉ pipe env ∧
      (∀ q, Ev.bindAttempt q ∈ pipe env → q = env.bindPort) ∧
      (pipe env).count (Ev.bindAttempt env.bindPort) = 1 := by
  intro env hpm hbind
  have htrace : pipe env = [.sessionCreate, .sockCreate, .portMapped env.bindPort,
      .bindAttempt env.bindPort, .bindFailLog, .sessionClose, .loopStop] := by
    simp [pipe, hpm, hbind, pipeCleanup]
  refine ⟨htrace, ?_, ?_, ?_, ?_⟩
  · rw [htrace]; simp
  · rw [htrace]; simp
  · intro q hq
    rw [htrace] at hq
    simpa using hq
  · rw [htrace]
    simp [List.count_cons, List.count_nil]

/-- Concrete instance of `pipe_bind_failure_terminates` at port 50000. -/
theorem pipe_bind_failure_terminates_witness :
    pipe { portMapOk := true, bindPort := 50000, bindOk := false, connectOk := true,
           acceptOk := true, msgs := [], subprocDone := false, readerDone := false }
      = [.sessionCreate, .sockCreate, .portMapped 50000, .bindAttempt 50000,
         .bindFailLog, .sessionClose, .loopStop] :=
  (pipe_bind_failure_terminates _ rfl rfl).1

/-- C8 counterexample: on the terminal path where the WebSocket
connection fails (`ClientError` from `ws_connect`), the listener socket
has been bound and is listening, yet the `finally` block
(`proxy.py` lines 162-172) never closes it — `local_sock.close()` exists
only on the accept path (line 143) — so the bound local listener is
*not* released on every terminal path before the supervisor returns. -/
theorem pipe_listener_socket_leak :
    Ev.listen ∈ pipe { portMapOk := true, bindPort := 40000, bindOk := true,
                       connectOk := false, acceptOk := true, msgs := [],
                       subprocDone := false, readerDone := false } ∧
    Ev.listenerClose ∉ pipe { portMapOk := true, bindPort := 40000, bindOk := true,
                              connectOk := false, acceptOk := true, msgs := [],
                              subprocDone := false, readerDone := false } := by
  constructor
  · simp [pipe, pipeCleanup]
  · simp [pipe, pipeCleanup]

/-- C8 amended: on every terminal path of one `pipe` invocation the
WebSocket session is closed, the accepted local socket (when one was
accepted) is closed, and the subprocess-watcher and forwarding tasks
(when started and not already finished) are cancelled and awaited, all
before the supervisor returns (`serve_proxy` awaits the pipe task in its
own `finally`, so the pipe trace completes first); the bound local
listener socket, however, is closed only on the path that reaches a
successful accept, not on earlier-terminating paths. -/
theorem pipe_cleanup_on_all_paths :
    ∀ env : PipeEnv,
      Ev.sessionClose ∈ pipe env ∧
      (Ev.accepted ∈ pipe env →
        Ev.sshSockClose ∈ pipe env ∧ Ev.listenerClose ∈ pipe env) ∧
      (Ev.spawnSubproc ∈ pipe env → env.subprocDone = false →
        Ev.subprocCancel ∈ pipe env ∧ Ev.subprocAwait ∈ pipe env) ∧
      (Ev.readerStart ∈ pipe env → env.readerDone = false →
        Ev.readerCancel ∈ pipe env ∧ Ev.readerAwait ∈ pipe env) := by
  intro env
  obtain ⟨pmOk, port, bindOk, connectOk, acceptOk, msgs, subprocDone, readerDone⟩ := env
  cases pmOk <;> cases bindOk <;> cases connectOk <;> cases acceptOk <;>
    cases subprocDone <;> cases readerDone <;>
    simp [pipe, pipeCleanup]

/-- Concrete instance of `pipe_cleanup_on_all_paths` on a normal piping
run: the session is closed, the accepted socket is closed, and both the
subprocess watcher and the reader task are cancelled and awaited. -/
theorem pipe_cleanup_on_all_paths_witness :
    Ev.sessionClose ∈ pipe { portMapOk := true, bindPort := 40000, bindOk := true,
                             connectOk := true, acceptOk := true,
                             msgs := [.binary [1, 2], .closed],
                             subprocDone := false, readerDone := false } ∧
    Ev.sshSockClose ∈ pipe { portMapOk := true, bindPort := 40000, bindOk := true,
                             connectOk := true, acceptOk := true,
                             msgs := [.binary [1, 2], .closed],
                             subprocDone := false, readerDone := false } ∧
    Ev.subprocAwait ∈ pipe { portMapOk := true, bindPort := 40000, bindOk := true,
                             connectOk := true, acceptOk := true,
                             msgs := [.binary [1, 2], .closed],
                             subprocDone := false, readerDone := false } ∧
    Ev.readerAwait ∈ pipe { portMapOk := true, bindPort := 40000, bindOk := true,
                            connectOk := true, acceptOk := true,
                            msgs := [.binary [1, 2], .closed],
                            subprocDone := false, readerDone := false } := by
  refine ⟨(pipe_cleanup_on_all_paths _).1, ?_, ?_, ?_⟩
  · exact ((pipe_cleanup_on_all_paths _).2.1 (by decide)).1
  · exact ((pipe_cleanup_on_all_paths _).2.2.1 (by decide) rfl).2
  · exact ((pipe_cleanup_on_all_paths _).2.2.2 (by decide) rfl).2

end GeofrontCli
